import Mathlib

/-!
# Order Event Processor — shallow embedding

Embedding of the webhook action in `app/routes/webhooks.orders.create` style
route (src/unnamed/part_000): an order-created event is validated, a points
award is computed from the subtotal, an idempotency marker is checked and
written, and the `LoyaltyPoints` ledger row is upserted.

Modelling conventions:
* The HTTP request body is taken as an already-parsed event record
  (`OrderEvent`); `topic` comes from `authenticate.webhook`.
* JavaScript `parseFloat` is modelled exactly over `ℚ` for plain decimal
  literals (optional sign, digits, optional fractional part); every other
  string yields `none`, standing for `NaN`.  The JS comparison `NaN <= 0`
  is `false`, which `jsLeZero none = false` reproduces.
* The marker storage (the raw `_prisma_migrations` inserts keyed by
  `name = eventKey`) is modelled as a list of recorded keys, per the spec's
  store-agnostic description of the marker table, since the table's DDL is
  ORM-internal and not part of the repository.
* Data-store failures are injected through a `Faults` record: each store
  statement of the handler can be made to throw, and `insertDup` makes the
  marker insert throw a duplicate-key error (a concurrent invocation having
  inserted the key between the `SELECT` and the `INSERT`).  Every throw
  inside the `try` lands in the `catch` block, which returns a 500 response
  (`Outcome.storeFailure`).
* A Prisma `Int` column rejects `NaN`, so a ledger write with `NaN` points
  throws and is likewise caught (`storeFailure`); the marker row written
  just before it remains.
* Timestamps (`new Date()`) are a `Nat` parameter `now`.
-/

/-- One row of the `LoyaltyPoints` table: unique `customerId`, integer
`points`, `updatedAt` timestamp. -/
structure LedgerEntry where
  customerId : String
  points : Int
  updatedAt : Nat
deriving DecidableEq, Repr

/-- The durable store: recorded idempotency marker keys and the ledger rows. -/
structure Store where
  markers : List String
  ledger : List LedgerEntry
deriving DecidableEq, Repr

/-- The inbound order-created event as the handler reads it:
`topic` (from the webhook envelope), `order.id` (absent possible),
`order.customer.id` (absent customer, or falsy id, modelled as `none` /
empty string), `order.subtotal_price` (absent possible). -/
structure OrderEvent where
  topic : String
  id : Option String
  customer : Option String
  subtotal_price : Option String
deriving DecidableEq, Repr

/-- Fault injection for the store statements, in the order the handler
issues them.  `insertDup` is the duplicate-key rejection of the marker
insert (the §5 race); the others are generic store errors. -/
structure Faults where
  queryMarker : Bool
  insertMarker : Bool
  insertDup : Bool
  findLedger : Bool
  writeLedger : Bool
deriving DecidableEq, Repr

/-- The fault-free schedule: every store statement succeeds. -/
def noFaults : Faults :=
  ⟨false, false, false, false, false⟩

/-- Whether some store statement of the invocation throws. -/
def anyFault (f : Faults) : Bool :=
  f.queryMarker || f.insertMarker || f.insertDup || f.findLedger || f.writeLedger

/-- The handler's possible results: one constructor per `Response` the
route returns. -/
inductive Outcome where
  | unsupportedTopic
  | noCustomer
  | belowThreshold
  | alreadyProcessed
  | awarded (points : Int) (customerId : String)
  | storeFailure
deriving DecidableEq, Repr

/-- HTTP status of each response, as written in the source. -/
def statusOf : Outcome → Nat
  | .unsupportedTopic => 400
  | .noCustomer => 200
  | .belowThreshold => 200
  | .alreadyProcessed => 200
  | .awarded _ _ => 200
  | .storeFailure => 500

/-- Numeric value of a digit string (most significant first). -/
def natOfDigits (l : List Char) : Nat :=
  l.foldl (fun a c => 10 * a + (c.toNat - 48)) 0

/-- A nonempty all-digit character list. -/
def isDigitRun (l : List Char) : Bool :=
  !l.isEmpty && l.all (·.isDigit)

/-- Split a character list at the first `.`; the second component is
`none` when no dot occurs. -/
def splitDot : List Char → List Char × Option (List Char)
  | [] => ([], none)
  | c :: cs =>
    if c = '.' then ([], some cs)
    else
      let r := splitDot cs
      (c :: r.1, r.2)

/-- JS `parseFloat`, modelled exactly over `ℚ` on plain decimal literals
`[+|-]digits[.digits]`: the literal's exact rational value
`± (ip·10^k + fp) / 10^k` (with `k` fractional digits) via `Rat.divInt`.
Any other string yields `none`, standing for `NaN`.  (Exponents,
`Infinity`, surrounding whitespace and trailing garbage, which the handler
never receives from well-formed payloads, are out of scope of the model.) -/
def parseFloat (s : String) : Option ℚ :=
  let (sgn, body) :=
    match s.data with
    | '-' :: rest => ((-1 : ℤ), rest)
    | '+' :: rest => ((1 : ℤ), rest)
    | l => ((1 : ℤ), l)
  match splitDot body with
  | (ip, none) =>
      if isDigitRun ip then some (Rat.divInt (sgn * natOfDigits ip) 1) else none
  | (ip, some fp) =>
      if isDigitRun ip && isDigitRun fp then
        some (Rat.divInt (sgn * (natOfDigits ip * 10 ^ fp.length + natOfDigits fp))
          (10 ^ fp.length))
      else none

/-- Source `order.subtotal_price || "0"`: an absent field or the empty string
(both falsy) default to `"0"`. -/
def subtotalString (e : OrderEvent) : String :=
  match e.subtotal_price with
  | none => "0"
  | some s => if s = "" then "0" else s

/-- Source `Math.floor(x / 10)` for a JS number `x = num/den`: the floor of
the exact rational `num / (den * 10)`.  (Lemma `jsFloorDiv10_eq` states the
equality with `⌊q / 10⌋`.) -/
def jsFloorDiv10 (q : ℚ) : ℤ :=
  Rat.floor (Rat.divInt q.num (q.den * 10))

/-- Source `Math.floor(subtotal / 10)` on the parsed subtotal; `none` is
`NaN` (`Math.floor(NaN) = NaN`). -/
def pointsOf (e : OrderEvent) : Option ℤ :=
  (parseFloat (subtotalString e)).map jsFloorDiv10

/-- The JS test `points <= 0`, where `NaN <= 0` evaluates to `false`. -/
def jsLeZero : Option ℤ → Bool
  | none => false
  | some z => z ≤ 0

/-- The template literal interpolating the order id between `order_` and
`_processed`; an absent `order.id` interpolates as the string
`"undefined"`. -/
def eventKey (e : OrderEvent) : String :=
  "order_" ++ e.id.getD "undefined" ++ "_processed"

/-- Source `prisma.loyaltyPoints.findUnique` at the unique `customerId`. -/
def findLedgerEntry (l : List LedgerEntry) (cid : String) : Option LedgerEntry :=
  l.find? (fun en => en.customerId = cid)

/-- Source `prisma.loyaltyPoints.update`: the row at the unique
`customerId` gets `points := pts` and `updatedAt := now`. -/
def updateLedger (l : List LedgerEntry) (cid : String) (pts : Int) (now : Nat) :
    List LedgerEntry :=
  l.map (fun en => if en.customerId = cid then ⟨cid, pts, now⟩ else en)

/-- The webhook `action`, translated statement by statement from the
source.  Returns the response outcome and the store after the invocation.
Control flow: topic guard (outside the `try`), customer guard, points
computation and threshold guard, marker `SELECT`, marker `INSERT`, ledger
`findUnique`, then `update` or `create`; every store throw is caught by
the surrounding `catch`, which answers 500 (`storeFailure`). -/
def action (e : OrderEvent) (s : Store) (f : Faults) (now : Nat) : Outcome × Store :=
  if e.topic ≠ "orders/create" then (.unsupportedTopic, s)
  else
    match e.customer with
    | none => (.noCustomer, s)
    | some cid =>
      if cid = "" then (.noCustomer, s)
      else
        let points := pointsOf e
        if jsLeZero points then (.belowThreshold, s)
        else
          let key := eventKey e
          if f.queryMarker then (.storeFailure, s)
          else if s.markers.contains key then (.alreadyProcessed, s)
          else if f.insertMarker || f.insertDup then (.storeFailure, s)
          else
            let s₁ : Store := { s with markers := key :: s.markers }
            if f.findLedger then (.storeFailure, s₁)
            else
              match points with
              | none => (.storeFailure, s₁)
              | some p =>
                if f.writeLedger then (.storeFailure, s₁)
                else
                  match findLedgerEntry s₁.ledger cid with
                  | some en =>
                      (.awarded p cid,
                        { s₁ with ledger := updateLedger s₁.ledger cid (en.points + p) now })
                  | none =>
                      (.awarded p cid,
                        { s₁ with ledger := s₁.ledger ++ [⟨cid, p, now⟩] })

/-- At most one ledger row per `customerId` (the unique index on
`LoyaltyPoints.customerId`). -/
def uniqueCustomers (l : List LedgerEntry) : Prop :=
  (l.map LedgerEntry.customerId).Nodup

/-- A customer's visible balance: the points of their row, `0` if absent. -/
def balance (s : Store) (cid : String) : Int :=
  match findLedgerEntry s.ledger cid with
  | some en => en.points
  | none => 0

/-! ## Supporting lemmas -/

theorem jsFloorDiv10_eq (q : ℚ) : jsFloorDiv10 q = ⌊q / 10⌋ := by
  unfold jsFloorDiv10
  have h1 : Rat.floor (Rat.divInt q.num (q.den * 10)) = ⌊Rat.divInt q.num (q.den * 10)⌋ := rfl
  rw [h1, Rat.divInt_eq_div]
  congr 1
  push_cast
  rw [div_mul_eq_div_div, Rat.num_div_den]

theorem findLedgerEntry_updateLedger_self (l : List LedgerEntry) (cid : String)
    (pts : Int) (now : Nat) (en : LedgerEntry)
    (h : findLedgerEntry l cid = some en) :
    findLedgerEntry (updateLedger l cid pts now) cid = some ⟨cid, pts, now⟩ := by
  induction l with
  | nil => simp [findLedgerEntry] at h
  | cons a t ih =>
    by_cases ha : a.customerId = cid
    · simp [findLedgerEntry, updateLedger, ha]
    · simp only [findLedgerEntry, updateLedger, List.map_cons, if_neg ha] at h ⊢
      rw [List.find?_cons_of_neg _ (by simpa using ha)] at h ⊢
      exact ih h

theorem findLedgerEntry_updateLedger_ne (l : List LedgerEntry) (cid : String)
    (pts : Int) (now : Nat) (c : String) (h : c ≠ cid) :
    findLedgerEntry (updateLedger l cid pts now) c = findLedgerEntry l c := by
  induction l with
  | nil => simp [findLedgerEntry, updateLedger]
  | cons a t ih =>
    by_cases ha : a.customerId = cid
    · have h1 : ¬ (LedgerEntry.customerId ⟨cid, pts, now⟩ = c) := fun hc => h hc.symm
      have h2 : ¬ (a.customerId = c) := fun hc => h (hc ▸ ha)
      simp only [findLedgerEntry, updateLedger, List.map_cons, if_pos ha] at ih ⊢
      rw [List.find?_cons_of_neg _ (by simpa using h1),
        List.find?_cons_of_neg _ (by simpa using h2)]
      exact ih
    · simp only [findLedgerEntry, updateLedger, List.map_cons, if_neg ha] at ih ⊢
      by_cases hc : a.customerId = c
      · rw [List.find?_cons_of_pos _ (by simpa using hc),
          List.find?_cons_of_pos _ (by simpa using hc)]
      · rw [List.find?_cons_of_neg _ (by simpa using hc),
          List.find?_cons_of_neg _ (by simpa using hc)]
        exact ih

theorem keys_updateLedger (l : List LedgerEntry) (cid : String) (pts : Int) (now : Nat) :
    (updateLedger l cid pts now).map LedgerEntry.customerId
      = l.map LedgerEntry.customerId := by
  induction l with
  | nil => rfl
  | cons a t ih =>
    by_cases ha : a.customerId = cid
    · simp [updateLedger, ha] at ih ⊢
      exact ih
    · simp [updateLedger, ha] at ih ⊢
      exact ih

/-- Inversion of a successful award: the run passed every guard, the
marker was absent and is now recorded at the head of the marker list. -/
theorem awarded_inv {e : OrderEvent} {s : Store} {f : Faults} {now : Nat}
    {p : ℤ} {c : String} {s' : Store}
    (h : action e s f now = (.awarded p c, s')) :
    e.topic = "orders/create" ∧ e.customer = some c ∧ c ≠ "" ∧
    pointsOf e = some p ∧ jsLeZero (pointsOf e) = false ∧
    f.queryMarker = false ∧ s.markers.contains (eventKey e) = false ∧
    s'.markers = eventKey e :: s.markers := by
  simp only [action] at h
  repeat' split at h
  all_goals simp_all
  all_goals obtain ⟨⟨hz, hv⟩, hst⟩ := h
  all_goals rw [← hst]

/-! ## Claim theorems -/

/-- C1: after a first invocation completes a successful award for an order
identifier, a second invocation with the same payload finds the recorded
marker and returns `AlreadyProcessed` as a success no-op, leaving the
marker table and every ledger balance unchanged. -/
theorem award_applied_at_most_once_on_redelivery
    (e : OrderEvent) (s s₁ : Store) (f' : Faults) (now now' : Nat)
    (p : ℤ) (c : String)
    (h : action e s noFaults now = (.awarded p c, s₁))
    (hq : f'.queryMarker = false) :
    action e s₁ f' now' = (.alreadyProcessed, s₁) := by
  obtain ⟨htopic, hcust, hne, hp, hjs, -, -, hmk⟩ := awarded_inv h
  simp [action, htopic, hcust, hne, hjs, hq, hmk, List.contains_cons]

/-- Witness for C1 at a concrete event: the first delivery awards 5 points,
the redelivery against the resulting store is an `AlreadyProcessed` no-op. -/
theorem award_applied_at_most_once_on_redelivery_witness :
    action ⟨"orders/create", some "42", some "c1", some "50.00"⟩
      ⟨["order_42_processed"], [⟨"c1", 5, 0⟩]⟩ noFaults 1
    = (.alreadyProcessed, ⟨["order_42_processed"], [⟨"c1", 5, 0⟩]⟩) :=
  award_applied_at_most_once_on_redelivery
    ⟨"orders/create", some "42", some "c1", some "50.00"⟩
    ⟨[], []⟩ ⟨["order_42_processed"], [⟨"c1", 5, 0⟩]⟩ noFaults 0 1 5 "c1"
    (by decide) rfl

/-- C6: an order-created event with no customer reference (or a falsy
customer id) terminates as the `NoCustomer` success no-op with no store
writes at all, under any fault schedule. -/
theorem missing_customer_noop
    (e : OrderEvent) (s : Store) (f : Faults) (now : Nat)
    (htopic : e.topic = "orders/create")
    (hc : e.customer = none ∨ e.customer = some "") :
    action e s f now = (.noCustomer, s) := by
  rcases hc with hc | hc <;> simp [action, htopic, hc]

/-- Witness for C6: a concrete customerless order touches nothing. -/
theorem missing_customer_noop_witness :
    action ⟨"orders/create", some "7", none, some "50.00"⟩
      ⟨["order_1_processed"], [⟨"c1", 5, 0⟩]⟩ noFaults 3
    = (.noCustomer, ⟨["order_1_processed"], [⟨"c1", 5, 0⟩]⟩) :=
  missing_customer_noop ⟨"orders/create", some "7", none, some "50.00"⟩
    ⟨["order_1_processed"], [⟨"c1", 5, 0⟩]⟩ noFaults 3 rfl (Or.inl rfl)

/-- C7: the preconditions are evaluated in order and each is terminal: a
non-order-creation topic is rejected as `UnsupportedTopic` (HTTP 400)
before any other check and without store writes; with the topic right, a
missing customer answers `NoCustomer` whatever the subtotal or marker
state; with a customer present, a non-positive points value answers
`BelowThreshold` before the idempotency check, even when a marker for the
order already exists. -/
theorem precondition_check_order :
    (∀ e s f now, e.topic ≠ "orders/create" →
      action e s f now = (.unsupportedTopic, s) ∧ statusOf (action e s f now).1 = 400)
    ∧ (∀ oid sub s f now,
        action ⟨"orders/create", oid, none, sub⟩ s f now = (.noCustomer, s))
    ∧ (∀ e s f now c, e.topic = "orders/create" → e.customer = some c → c ≠ "" →
        jsLeZero (pointsOf e) = true → action e s f now = (.belowThreshold, s)) := by
  refine ⟨fun e s f now ht => ?_, fun oid sub s f now => ?_,
    fun e s f now c ht hc hne hjs => ?_⟩
  · constructor <;> simp [action, ht, statusOf]
  · simp [action]
  · simp [action, ht, hc, hne, hjs]

/-- Witness for C7: an `orders/updated` event is rejected 400 with the
store untouched; a customerless event and a marker-present low-subtotal
event terminate at the documented earlier checks. -/
theorem precondition_check_order_witness :
    (action ⟨"orders/updated", some "1", some "c1", some "50.00"⟩
        ⟨[], []⟩ noFaults 0 = (.unsupportedTopic, ⟨[], []⟩))
    ∧ (action ⟨"orders/create", some "1", none, some "abc"⟩
        ⟨["order_1_processed"], []⟩ noFaults 0
        = (.noCustomer, ⟨["order_1_processed"], []⟩))
    ∧ (action ⟨"orders/create", some "1", some "c1", some "9.99"⟩
        ⟨["order_1_processed"], []⟩ noFaults 0
        = (.belowThreshold, ⟨["order_1_processed"], []⟩)) :=
  ⟨(precondition_check_order.1 _ ⟨[], []⟩ noFaults 0 (by decide)).1,
   precondition_check_order.2.1 (some "1") (some "abc")
     ⟨["order_1_processed"], []⟩ noFaults 0,
   precondition_check_order.2.2 _ ⟨["order_1_processed"], []⟩ noFaults 0 "c1"
     rfl rfl (by decide) (by decide)⟩

/-- C10: the marker key is derived by string interpolation of the raw
`order.id`, so every event without an order id yields the one constant key
`order_undefined_processed`; consequently, after one id-less order has
been awarded and marked, every later qualifying id-less order is
short-circuited as `AlreadyProcessed` and receives no award. -/
theorem undefined_order_id_collapses_marker_key :
    (∀ e : OrderEvent, e.id = none → eventKey e = "order_undefined_processed")
    ∧ (∀ (e₁ e₂ : OrderEvent) (s s₁ : Store) (f' : Faults) (now now' : Nat)
        (p : ℤ) (c c₂ : String),
        e₁.id = none → e₂.id = none →
        action e₁ s noFaults now = (.awarded p c, s₁) →
        e₂.topic = "orders/create" → e₂.customer = some c₂ → c₂ ≠ "" →
        jsLeZero (pointsOf e₂) = false → f'.queryMarker = false →
        action e₂ s₁ f' now' = (.alreadyProcessed, s₁)) := by
  have hkey : ∀ e : OrderEvent, e.id = none → eventKey e = "order_undefined_processed" := by
    intro e h
    unfold eventKey
    rw [h]
    rfl
  refine ⟨hkey, ?_⟩
  intro e₁ e₂ s s₁ f' now now' p c c₂ h₁ h₂ h ht hc hne hjs hq
  obtain ⟨-, -, -, -, -, -, -, hmk⟩ := awarded_inv h
  rw [hkey e₁ h₁] at hmk
  simp [action, ht, hc, hne, hjs, hq, hmk, hkey e₂ h₂, List.contains_cons]

/-- Witness for C10: a first id-less order is awarded under the collapsed
key, a second id-less order for a different customer is then refused as
`AlreadyProcessed`. -/
theorem undefined_order_id_collapses_marker_key_witness :
    eventKey ⟨"orders/create", none, some "c1", some "50.00"⟩ = "order_undefined_processed"
    ∧ action ⟨"orders/create", none, some "c2", some "20.00"⟩
        ⟨["order_undefined_processed"], [⟨"c1", 5, 0⟩]⟩ noFaults 1
      = (.alreadyProcessed, ⟨["order_undefined_processed"], [⟨"c1", 5, 0⟩]⟩) :=
  ⟨undefined_order_id_collapses_marker_key.1 _ rfl,
   undefined_order_id_collapses_marker_key.2
     ⟨"orders/create", none, some "c1", some "50.00"⟩
     ⟨"orders/create", none, some "c2", some "20.00"⟩
     ⟨[], []⟩ ⟨["order_undefined_processed"], [⟨"c1", 5, 0⟩]⟩ noFaults 0 1 5 "c1" "c2"
     rfl rfl (by decide) rfl rfl (by decide) (by decide) rfl⟩

/-- C2 (code bug): a non-numeric subtotal parses to `NaN`, and in JS
`NaN <= 0` is `false`, so the handler does not take the `points <= 0`
no-op: it writes the idempotency marker and then fails the ledger write,
answering a 500 — instead of the specified success no-op with no marker
write and no ledger mutation.  A negative subtotal, by contrast, does
floor to a non-positive award and is the specified `BelowThreshold`
no-op. -/
theorem nan_subtotal_bypasses_threshold :
    pointsOf ⟨"orders/create", some "9001", some "c1", some "abc"⟩ = none
    ∧ jsLeZero (pointsOf ⟨"orders/create", some "9001", some "c1", some "abc"⟩) = false
    ∧ action ⟨"orders/create", some "9001", some "c1", some "abc"⟩ ⟨[], []⟩ noFaults 0
        = (.storeFailure, ⟨["order_9001_processed"], []⟩)
    ∧ statusOf (action ⟨"orders/create", some "9001", some "c1", some "abc"⟩
        ⟨[], []⟩ noFaults 0).1 = 500
    ∧ action ⟨"orders/create", some "9002", some "c1", some "-5.00"⟩ ⟨[], []⟩ noFaults 0
        = (.belowThreshold, ⟨[], []⟩) := by
  decide

/-- C3 counterexample: an invocation whose marker insert fails with a
duplicate-key condition is answered `StoreFailure` (HTTP 500), not the
`AlreadyProcessed` success no-op (HTTP 200) the claim asserts. -/
theorem duplicate_key_insert_not_already_processed :
    action ⟨"orders/create", some "7", some "c1", some "50.00"⟩
      ⟨[], [⟨"c1", 5, 0⟩]⟩ ⟨false, false, true, false, false⟩ 0
      = (.storeFailure, ⟨[], [⟨"c1", 5, 0⟩]⟩)
    ∧ (Outcome.storeFailure ≠ Outcome.alreadyProcessed)
    ∧ statusOf .storeFailure = 500 ∧ statusOf .alreadyProcessed = 200 := by
  decide

/-- C3 as amended: an invocation whose marker insert fails with a
duplicate-key condition does not proceed to mutate the ledger (the store
is returned unchanged), but the failure is caught by the boundary handler
as `StoreFailure` (server error, retried by redelivery) rather than being
treated as the `AlreadyProcessed` success no-op. -/
theorem duplicate_key_insert_caught_as_storeFailure
    (e : OrderEvent) (s : Store) (f : Faults) (now : Nat) (c : String)
    (htopic : e.topic = "orders/create") (hc : e.customer = some c) (hne : c ≠ "")
    (hjs : jsLeZero (pointsOf e) = false) (hq : f.queryMarker = false)
    (hm : s.markers.contains (eventKey e) = false) (hdup : f.insertDup = true) :
    action e s f now = (.storeFailure, s) := by
  have hm' : eventKey e ∉ s.markers := by simpa using hm
  simp [action, htopic, hc, hne, hjs, hq, hm', hdup]

/-- Witness for the amended C3 at a concrete event: the duplicate-key
throw yields a 500 and the ledger row is untouched. -/
theorem duplicate_key_insert_caught_as_storeFailure_witness :
    action ⟨"orders/create", some "7", some "c1", some "50.00"⟩
      ⟨[], [⟨"c1", 5, 0⟩]⟩ ⟨false, false, true, false, false⟩ 4
      = (.storeFailure, ⟨[], [⟨"c1", 5, 0⟩]⟩) :=
  duplicate_key_insert_caught_as_storeFailure
    ⟨"orders/create", some "7", some "c1", some "50.00"⟩
    ⟨[], [⟨"c1", 5, 0⟩]⟩ ⟨false, false, true, false, false⟩ 4 "c1"
    rfl rfl (by decide) (by decide) rfl rfl rfl

/-- C4: the award is the floor of the parsed subtotal divided by ten; a
subtotal of `"9.99"` floors to `0` points and terminates as the
`BelowThreshold` no-op with the store untouched (so no marker and no
ledger write), while `"10.00"` floors to `1` point and the award is
applied, raising the customer's balance by one. -/
theorem points_floor_of_subtotal :
    (∀ (e : OrderEvent) (q : ℚ), parseFloat (subtotalString e) = some q →
        pointsOf e = some ⌊q / 10⌋)
    ∧ (∀ (oid : Option String) (cid : String) (s : Store) (f : Faults) (now : Nat),
        cid ≠ "" →
        action ⟨"orders/create", oid, some cid, some "9.99"⟩ s f now = (.belowThreshold, s))
    ∧ (∀ (oid : Option String) (cid : String) (s : Store) (now : Nat),
        cid ≠ "" →
        s.markers.contains (eventKey ⟨"orders/create", oid, some cid, some "10.00"⟩) = false →
        (action ⟨"orders/create", oid, some cid, some "10.00"⟩ s noFaults now).1
          = .awarded 1 cid
        ∧ balance (action ⟨"orders/create", oid, some cid, some "10.00"⟩ s noFaults now).2 cid
          = balance s cid + 1) := by
  refine ⟨?_, ?_, ?_⟩
  · intro e q h
    unfold pointsOf
    rw [h]
    simp [jsFloorDiv10_eq]
  · intro oid cid s f now hne
    have hp : pointsOf ⟨"orders/create", oid, some cid, some "9.99"⟩ = some 0 := rfl
    simp [action, hne, hp, jsLeZero]
  · intro oid cid s now hne hm
    have hp : pointsOf ⟨"orders/create", oid, some cid, some "10.00"⟩ = some 1 := rfl
    have hm' : eventKey ⟨"orders/create", oid, some cid, some "10.00"⟩ ∉ s.markers := by
      simpa using hm
    cases hfind : findLedgerEntry s.ledger cid with
    | some en =>
      have ha : action ⟨"orders/create", oid, some cid, some "10.00"⟩ s noFaults now
          = (.awarded 1 cid,
             ⟨eventKey ⟨"orders/create", oid, some cid, some "10.00"⟩ :: s.markers,
              updateLedger s.ledger cid (en.points + 1) now⟩) := by
        simp [action, hne, hp, hm', jsLeZero, noFaults, hfind]
      rw [ha]
      refine ⟨rfl, ?_⟩
      simp only [balance]
      rw [findLedgerEntry_updateLedger_self s.ledger cid (en.points + 1) now en hfind, hfind]
    | none =>
      have ha : action ⟨"orders/create", oid, some cid, some "10.00"⟩ s noFaults now
          = (.awarded 1 cid,
             ⟨eventKey ⟨"orders/create", oid, some cid, some "10.00"⟩ :: s.markers,
              s.ledger ++ [⟨cid, 1, now⟩]⟩) := by
        simp [action, hne, hp, hm', jsLeZero, noFaults, hfind]
      rw [ha]
      refine ⟨rfl, ?_⟩
      simp only [balance, findLedgerEntry] at hfind ⊢
      rw [List.find?_append, hfind]
      simp

/-- Witness for C4 at concrete payloads: `"9.99"` floors to zero and is a
no-op; `"10.00"` awards one point and raises the balance from 0 to 1. -/
theorem points_floor_of_subtotal_witness :
    pointsOf ⟨"orders/create", some "1", some "c1", some "9.99"⟩
      = some ⌊(Rat.divInt 999 100) / 10⌋
    ∧ action ⟨"orders/create", some "1", some "c1", some "9.99"⟩ ⟨[], []⟩ noFaults 0
      = (.belowThreshold, ⟨[], []⟩)
    ∧ (action ⟨"orders/create", some "2", some "c1", some "10.00"⟩ ⟨[], []⟩ noFaults 0).1
      = .awarded 1 "c1"
    ∧ balance (action ⟨"orders/create", some "2", some "c1", some "10.00"⟩
        ⟨[], []⟩ noFaults 0).2 "c1" = balance ⟨[], []⟩ "c1" + 1 :=
  ⟨points_floor_of_subtotal.1 _ _ rfl,
   points_floor_of_subtotal.2.1 (some "1") "c1" ⟨[], []⟩ noFaults 0 (by decide),
   (points_floor_of_subtotal.2.2 (some "2") "c1" ⟨[], []⟩ 0 (by decide) rfl).1,
   (points_floor_of_subtotal.2.2 (some "2") "c1" ⟨[], []⟩ 0 (by decide) rfl).2⟩

/-- C5: on the commit path the ledger upsert behaves as specified — an
existing row for the customer gets `points_old + points` and
`updatedAt = now`; an absent row is created with `points` and
`updatedAt = now`; the marker is recorded in the same invocation. -/
theorem commit_path_ledger_upsert
    (e : OrderEvent) (s : Store) (now : Nat) (c : String) (p : ℤ)
    (htopic : e.topic = "orders/create") (hc : e.customer = some c) (hne : c ≠ "")
    (hp : pointsOf e = some p) (hjs : jsLeZero (pointsOf e) = false)
    (hm : s.markers.contains (eventKey e) = false) :
    (∀ en, findLedgerEntry s.ledger c = some en →
        action e s noFaults now
          = (.awarded p c,
             ⟨eventKey e :: s.markers, updateLedger s.ledger c (en.points + p) now⟩)
        ∧ findLedgerEntry (updateLedger s.ledger c (en.points + p) now) c
          = some ⟨c, en.points + p, now⟩)
    ∧ (findLedgerEntry s.ledger c = none →
        action e s noFaults now
          = (.awarded p c, ⟨eventKey e :: s.markers, s.ledger ++ [⟨c, p, now⟩]⟩)) := by
  have hm' : eventKey e ∉ s.markers := by simpa using hm
  have hjs' : jsLeZero (some p) = false := by rw [← hp]; exact hjs
  constructor
  · intro en hfind
    constructor
    · simp [action, htopic, hc, hne, hjs', hp, noFaults, hfind, hm']
    · exact findLedgerEntry_updateLedger_self s.ledger c (en.points + p) now en hfind
  · intro hfind
    simp [action, htopic, hc, hne, hjs', hp, noFaults, hfind, hm']

/-- Witness for C5: a customer holding 5 points awarded 3 (subtotal
`"30.00"`) ends at 8 with the new timestamp; a new customer with subtotal
`"50.00"` gets a fresh row with 5 points. -/
theorem commit_path_ledger_upsert_witness :
    (action ⟨"orders/create", some "8", some "c1", some "30.00"⟩
        ⟨[], [⟨"c1", 5, 0⟩]⟩ noFaults 9
      = (.awarded 3 "c1", ⟨["order_8_processed"], updateLedger [⟨"c1", 5, 0⟩] "c1" 8 9⟩)
     ∧ findLedgerEntry (updateLedger [⟨"c1", 5, 0⟩] "c1" 8 9) "c1" = some ⟨"c1", 8, 9⟩)
    ∧ action ⟨"orders/create", some "9", some "c2", some "50.00"⟩ ⟨[], []⟩ noFaults 3
      = (.awarded 5 "c2", ⟨["order_9_processed"], [⟨"c2", 5, 3⟩]⟩) :=
  ⟨(commit_path_ledger_upsert ⟨"orders/create", some "8", some "c1", some "30.00"⟩
      ⟨[], [⟨"c1", 5, 0⟩]⟩ 9 "c1" 3 rfl rfl (by decide) rfl (by decide) rfl).1
      ⟨"c1", 5, 0⟩ rfl,
   (commit_path_ledger_upsert ⟨"orders/create", some "9", some "c2", some "50.00"⟩
      ⟨[], []⟩ 3 "c2" 5 rfl rfl (by decide) rfl (by decide) rfl).2 rfl⟩

/-- Inversion of the store effect of one invocation on the ledger: it is
unchanged, or one existing row gained a positive award, or one new row
with a positive award was appended. -/
theorem action_ledger_shape {e : OrderEvent} {s : Store} {f : Faults} {now : Nat}
    {r : Outcome} {s' : Store} (hact : action e s f now = (r, s')) :
    s'.ledger = s.ledger
    ∨ (∃ c p en, 0 < p ∧ findLedgerEntry s.ledger c = some en ∧
        s'.ledger = updateLedger s.ledger c (en.points + p) now)
    ∨ (∃ c p, 0 < p ∧ findLedgerEntry s.ledger c = none ∧
        s'.ledger = s.ledger ++ [⟨c, p, now⟩]) := by
  simp only [action] at hact
  repeat' split at hact
  all_goals injection hact with h1 h2
  all_goals subst h2
  all_goals try (exact Or.inl rfl)
  · refine Or.inr (Or.inl ⟨_, _, _, ?_, ?_, rfl⟩)
    · simp_all [jsLeZero, Int.not_le]
    · assumption
  · refine Or.inr (Or.inr ⟨_, _, ?_, ?_, rfl⟩)
    · simp_all [jsLeZero, Int.not_le]
    · assumption

/-- C8: every invocation preserves the ledger invariants — at most one row
per customer id, every balance is non-decreasing, and no row is ever
deleted (rows are created on first award and mutated in place after). -/
theorem ledger_invariants_preserved
    (e : OrderEvent) (s : Store) (f : Faults) (now : Nat)
    (hu : uniqueCustomers s.ledger) :
    uniqueCustomers ((action e s f now).2).ledger
    ∧ (∀ c, balance s c ≤ balance (action e s f now).2 c)
    ∧ (∀ c en, findLedgerEntry s.ledger c = some en →
        ∃ en', findLedgerEntry ((action e s f now).2).ledger c = some en') := by
  rcases hact : action e s f now with ⟨r, s'⟩
  simp only [hact]
  rcases action_ledger_shape hact with h | ⟨c0, p0, en0, hps, hfind, h⟩ | ⟨c0, p0, hps, hfind, h⟩
  · refine ⟨?_, ?_, ?_⟩
    · unfold uniqueCustomers at hu ⊢
      rw [h]
      exact hu
    · intro c
      simp only [balance]
      rw [h]
    · intro c en hf
      unfold findLedgerEntry at hf ⊢
      rw [h]
      exact ⟨en, hf⟩
  · refine ⟨?_, ?_, ?_⟩
    · unfold uniqueCustomers at hu ⊢
      rw [h, keys_updateLedger]
      exact hu
    · intro c
      simp only [balance]
      rw [h]
      by_cases hc : c = c0
      · subst hc
        rw [findLedgerEntry_updateLedger_self s.ledger c (en0.points + p0) now en0 hfind, hfind]
        simp only
        omega
      · rw [findLedgerEntry_updateLedger_ne s.ledger c0 (en0.points + p0) now c hc]
    · intro c en hf
      rw [h]
      by_cases hc : c = c0
      · subst hc
        exact ⟨_, findLedgerEntry_updateLedger_self s.ledger c (en0.points + p0) now en0 hfind⟩
      · rw [findLedgerEntry_updateLedger_ne s.ledger c0 (en0.points + p0) now c hc]
        exact ⟨en, hf⟩
  · have hfind' : List.find? (fun en => en.customerId = c0) s.ledger = none := hfind
    refine ⟨?_, ?_, ?_⟩
    · unfold uniqueCustomers at hu ⊢
      rw [h, List.map_append]
      refine List.Nodup.append hu (by simp) ?_
      intro a ha hb
      simp only [List.map_cons, List.map_nil, List.mem_singleton] at hb
      subst hb
      obtain ⟨en, hen, hena⟩ := List.mem_map.mp ha
      have hne := List.find?_eq_none.mp hfind' en hen
      simp only [decide_eq_true_eq] at hne
      exact hne hena
    · intro c
      simp only [balance]
      rw [h]
      unfold findLedgerEntry
      rw [List.find?_append]
      by_cases hc : c = c0
      · subst hc
        rw [hfind']
        simp only [Option.none_or]
        rw [List.find?_cons_of_pos _ (by simp)]
        simp only
        omega
      · have hx : List.find? (fun en => en.customerId = c)
            [(⟨c0, p0, now⟩ : LedgerEntry)] = none := by
          simp only [List.find?_cons, List.find?_nil]
          have : ((⟨c0, p0, now⟩ : LedgerEntry).customerId = c) = False := by
            simp only [eq_iff_iff, iff_false]
            exact fun hcc => hc hcc.symm
          simp [this]
        rw [hx]
        cases hfc : List.find? (fun en => decide (en.customerId = c)) s.ledger <;> simp
    · intro c en hf
      unfold findLedgerEntry at hf ⊢
      rw [h, List.find?_append, hf]
      exact ⟨en, rfl⟩

/-- Witness for C8: awarding 3 points to a unique-keyed one-row ledger
keeps the key unique and does not decrease the balance. -/
theorem ledger_invariants_preserved_witness :
    uniqueCustomers ((action ⟨"orders/create", some "3", some "c1", some "30.00"⟩
        ⟨[], [⟨"c1", 5, 0⟩]⟩ noFaults 1).2).ledger
    ∧ balance ⟨[], [⟨"c1", 5, 0⟩]⟩ "c1"
        ≤ balance (action ⟨"orders/create", some "3", some "c1", some "30.00"⟩
            ⟨[], [⟨"c1", 5, 0⟩]⟩ noFaults 1).2 "c1" :=
  ⟨(ledger_invariants_preserved ⟨"orders/create", some "3", some "c1", some "30.00"⟩
      ⟨[], [⟨"c1", 5, 0⟩]⟩ noFaults 1 (by unfold uniqueCustomers; decide)).1,
   (ledger_invariants_preserved ⟨"orders/create", some "3", some "c1", some "30.00"⟩
      ⟨[], [⟨"c1", 5, 0⟩]⟩ noFaults 1 (by unfold uniqueCustomers; decide)).2.1 "c1"⟩

/-- C9: the processor is a total function into the defined outcomes (so no
fault escapes the boundary), and on a run that reaches the store writes,
any store error — marker query, marker insert (generic or duplicate-key),
ledger read or ledger write — surfaces as `StoreFailure` with HTTP 500. -/
theorem failures_converted_to_outcomes
    (e : OrderEvent) (s : Store) (f : Faults) (now : Nat) :
    ((action e s f now).1 = .unsupportedTopic ∨ (action e s f now).1 = .noCustomer ∨
     (action e s f now).1 = .belowThreshold ∨ (action e s f now).1 = .alreadyProcessed ∨
     (∃ p c, (action e s f now).1 = .awarded p c) ∨ (action e s f now).1 = .storeFailure)
    ∧ (∀ c, e.topic = "orders/create" → e.customer = some c → c ≠ "" →
        jsLeZero (pointsOf e) = false → s.markers.contains (eventKey e) = false →
        anyFault f = true →
        (action e s f now).1 = .storeFailure ∧ statusOf (action e s f now).1 = 500) := by
  constructor
  · cases ho : (action e s f now).1 <;> simp [ho]
  · intro c ht hc hne hjs hm hf
    have hm' : eventKey e ∉ s.markers := by simpa using hm
    suffices hsf : (action e s f now).1 = .storeFailure by
      refine ⟨hsf, ?_⟩
      simp [hsf, statusOf]
    cases hq : f.queryMarker with
    | true => simp [action, ht, hc, hne, hjs, hq]
    | false =>
      cases hi : f.insertMarker with
      | true => simp [action, ht, hc, hne, hjs, hq, hm', hi]
      | false =>
        cases hd : f.insertDup with
        | true => simp [action, ht, hc, hne, hjs, hq, hm', hi, hd]
        | false =>
          cases hfl : f.findLedger with
          | true => simp [action, ht, hc, hne, hjs, hq, hm', hi, hd, hfl]
          | false =>
            have hw : f.writeLedger = true := by
              simpa [anyFault, hq, hi, hd, hfl] using hf
            cases hp : pointsOf e with
            | none => simp [action, ht, hc, hne, hjs, jsLeZero, hq, hm', hi, hd, hfl, hp]
            | some p =>
              have hjs' : jsLeZero (some p) = false := by rw [← hp]; exact hjs
              simp [action, ht, hc, hne, hjs', hq, hm', hi, hd, hfl, hp, hw]

/-- Witness for C9: a ledger-write error on an otherwise clean commit path
is answered as a 500 `StoreFailure`. -/
theorem failures_converted_to_outcomes_witness :
    (action ⟨"orders/create", some "5", some "c1", some "50.00"⟩
      ⟨[], []⟩ ⟨false, false, false, false, true⟩ 2).1 = .storeFailure
    ∧ statusOf (action ⟨"orders/create", some "5", some "c1", some "50.00"⟩
      ⟨[], []⟩ ⟨false, false, false, false, true⟩ 2).1 = 500 :=
  (failures_converted_to_outcomes ⟨"orders/create", some "5", some "c1", some "50.00"⟩
    ⟨[], []⟩ ⟨false, false, false, false, true⟩ 2).2 "c1" rfl rfl
    (by decide) (by decide) rfl rfl
